import Mathlib

/-!
Verification development for the organization-membership admin API
(`handleCreateMembership`, `handleUpdateMembership` and their store
interactions).  The handlers are shallowly embedded as pure functions over an
explicit database state `DB`; every store read, store write, audit-log call
and e-mail dispatch additionally appends an `Event` to a trace, so ordering
and side-effect-counting properties can be stated about runs.

Request-body validation (the zod `safeParse` step) is outside the embedding:
the handlers are defined on already-parsed bodies, exactly the data a
successful parse yields.  JavaScript truthiness of the optional `projectId`
string (the empty string is falsy) is modelled explicitly.
-/

namespace Memberships

/-- The `Role` enumeration (`@langfuse/shared`). -/
inductive Role
  | OWNER
  | ADMIN
  | MEMBER
  | VIEWER
  | NONE
deriving DecidableEq, Repr

structure User where
  id : String
  email : String
  name : Option String
deriving DecidableEq, Repr

structure Organization where
  id : String
  name : String
deriving DecidableEq, Repr

/-- A project row; `deletedAt` is the soft-delete marker. -/
structure Project where
  id : String
  orgId : String
  deletedAt : Option String
deriving DecidableEq, Repr

structure OrganizationMembership where
  id : String
  orgId : String
  userId : String
  role : Role
deriving DecidableEq, Repr

structure ProjectMembership where
  userId : String
  projectId : String
  role : Role
  orgMembershipId : String
deriving DecidableEq, Repr

structure MembershipInvitation where
  id : String
  orgId : String
  projectId : Option String
  email : String
  orgRole : Role
  projectRole : Option Role
  invitedByUserId : Option String
deriving DecidableEq, Repr

/-- The relational state the prisma calls read and write. -/
structure DB where
  users : List User
  organizations : List Organization
  projects : List Project
  organizationMemberships : List OrganizationMembership
  projectMemberships : List ProjectMembership
  membershipInvitations : List MembershipInvitation
  nextId : Nat
deriving DecidableEq, Repr

/-- Fresh id for a row created by prisma. -/
def genId (db : DB) : String := "id_" ++ toString db.nextId

/-- `prisma.user.findUnique({where: {email}})`. -/
def findUserByEmail (db : DB) (email : String) : Option User :=
  db.users.find? (fun u => decide (u.email = email))

/-- `prisma.user.findUnique({where: {id}})`. -/
def findUserById (db : DB) (userId : String) : Option User :=
  db.users.find? (fun u => decide (u.id = userId))

/-- `prisma.organization.findUnique({where: {id}})`. -/
def findOrganization (db : DB) (orgId : String) : Option Organization :=
  db.organizations.find? (fun o => decide (o.id = orgId))

/-- `prisma.project.findFirst({where: {id, orgId, deletedAt: null}})`. -/
def findProjectInOrg (db : DB) (projectId orgId : String) : Option Project :=
  db.projects.find? (fun p =>
    decide (p.id = projectId ∧ p.orgId = orgId ∧ p.deletedAt = none))

/-- The natural key `(orgId, userId)` of an organization membership as a
row predicate. -/
def orgUserKey (orgId userId : String) (m : OrganizationMembership) : Bool :=
  decide (m.orgId = orgId ∧ m.userId = userId)

/-- `prisma.organizationMembership.findFirst({where: {orgId, userId}})`. -/
def findOrgMembership (db : DB) (orgId userId : String) :
    Option OrganizationMembership :=
  db.organizationMemberships.find? (orgUserKey orgId userId)

/-- `prisma.membershipInvitation.findFirst({where: {email, orgId}})`. -/
def findInvitation (db : DB) (email orgId : String) :
    Option MembershipInvitation :=
  db.membershipInvitations.find? (fun i =>
    decide (i.email = email ∧ i.orgId = orgId))

/-- Embedding of JavaScript `s.toLowerCase()` (character-wise lowering; the
core `String.toLower` is avoided only because its recursor does not reduce
in the kernel). -/
def lowerString (s : String) : String := ⟨s.data.map Char.toLower⟩

/-- JavaScript truthiness of an optional string (`undefined` and `""` are
falsy). -/
def strTruthy : Option String → Bool
  | some s => decide (s ≠ "")
  | none => false

/-- `projectId ? prisma.project.findFirst(...) : null`, with the JS
truthiness of the optional string. -/
def resolveProject (db : DB) (orgId : String) : Option String → Option Project
  | some pid => if pid = "" then none else findProjectInOrg db pid orgId
  | none => none

/-- Audit-log `after` snapshot. -/
inductive AuditAfter
  | orgMembership (m : OrganizationMembership)
  | projectMembership (m : ProjectMembership)
  | invitation (i : MembershipInvitation)
deriving DecidableEq, Repr

/-- One `auditLog({...})` record. -/
structure AuditLogEntry where
  resourceType : String
  resourceId : String
  action : String
  orgId : String
  orgRole : Role
  userId : String
  after : AuditAfter
deriving DecidableEq, Repr

/-- Payload of `sendMembershipInvitationEmail` (the source field `to` is a
reserved word here, hence `sendTo`). -/
structure EmailPayload where
  inviterEmail : String
  inviterName : String
  sendTo : String
  orgName : String
  orgId : String
  userExists : Bool
deriving DecidableEq, Repr

/-- Observable actions of a run, in order. -/
inductive Event
  | lookupUser (email : String)
  | lookupOrg (orgId : String)
  | lookupProject (projectId orgId : String)
  | lookupMembership (orgId userId : String)
  | lookupInvitation (orgId email : String)
  | createOrgMembership (m : OrganizationMembership)
  | createProjectMembership (m : ProjectMembership)
  | createInvitation (i : MembershipInvitation)
  | audit (e : AuditLogEntry)
  | sendEmail (p : EmailPayload)
deriving DecidableEq, Repr

/-- Typed results of the handlers (HTTP status plus JSON body). -/
inductive ApiResponse
  | orgNotFound
  | projectNotFound
  | userNotFound
  | alreadyMember
  | invitationExists
  | membershipCreated (userId : String) (role : Role) (email : String)
      (name : Option String)
  | invitationCreated (invitationId : String) (email : String) (role : Role)
      (status : String)
  | membershipUpserted (userId : String) (role : Role) (email : String)
      (name : Option String)
  | membershipDeleted (userId : String)
deriving DecidableEq, Repr

/-- A parsed `CreateMembershipSchema` body. -/
structure CreateMembershipBody where
  email : String
  role : Role
  projectId : Option String
  projectRole : Option Role
deriving DecidableEq, Repr

/-- A parsed `MembershipSchema` body (the PUT route). -/
structure MembershipBody where
  userId : String
  role : Role
deriving DecidableEq, Repr

/-- The slice of `env` the handler reads. -/
structure Env where
  emailFromAddress : Option String
deriving DecidableEq, Repr

/-- `env.EMAIL_FROM_ADDRESS || "noreply@langfuse.com"` (JS `||`: the empty
string falls through to the default). -/
def envOrDefault (v : Option String) (d : String) : String :=
  match v with
  | some s => if s = "" then d else s
  | none => d

/-- The store lookups the project resolution emits (none when no truthy
`projectId` was supplied). -/
def projectLookupEvents (orgId : String) : Option String → List Event
  | some pid => if pid = "" then [] else [Event.lookupProject pid orgId]
  | none => []

/-- The organization-membership row the existing-user branch creates. -/
def newOrgMembership (db : DB) (orgId : String) (u : User) (role : Role) :
    OrganizationMembership :=
  { id := genId db, orgId := orgId, userId := u.id, role := role }

/-- The audit entry recorded for an organization-membership creation. -/
def orgMembershipAuditEntry (orgId : String) (role : Role)
    (m : OrganizationMembership) : AuditLogEntry :=
  { resourceType := "orgMembership", resourceId := m.id, action := "create",
    orgId := orgId, orgRole := role, userId := "API",
    after := AuditAfter.orgMembership m }

/-- The project-membership row created when a valid project and a non-NONE
project role were supplied. -/
def newProjectMembership (u : User) (p : Project) (pr : Role)
    (m : OrganizationMembership) : ProjectMembership :=
  { userId := u.id, projectId := p.id, role := pr, orgMembershipId := m.id }

/-- The audit entry recorded for a project-membership creation; its resource
id is the composite string `projectId--userId`. -/
def projectMembershipAuditEntry (orgId : String) (role : Role) (p : Project)
    (u : User) (pm : ProjectMembership) : AuditLogEntry :=
  { resourceType := "projectMembership", resourceId := p.id ++ "--" ++ u.id,
    action := "create", orgId := orgId, orgRole := role, userId := "API",
    after := AuditAfter.projectMembership pm }

/-- The invitation row the new-user branch creates: `projectId` and
`projectRole` are only set when both a resolved project and a non-NONE
project role are present. -/
def invitationRow (db : DB) (orgId : String) (body : CreateMembershipBody)
    (project : Option Project) : MembershipInvitation :=
  { id := genId db, orgId := orgId,
    projectId :=
      match project, body.projectRole with
      | some p, some pr => if pr ≠ Role.NONE then some p.id else none
      | _, _ => none,
    email := lowerString body.email,
    orgRole := body.role,
    projectRole :=
      match body.projectRole, project with
      | some pr, some _ => if pr ≠ Role.NONE then some pr else none
      | _, _ => none,
    invitedByUserId := none }

/-- The audit entry recorded for an invitation creation. -/
def invitationAuditEntry (orgId : String) (role : Role)
    (inv : MembershipInvitation) : AuditLogEntry :=
  { resourceType := "membershipInvitation", resourceId := inv.id,
    action := "create", orgId := orgId, orgRole := role, userId := "API",
    after := AuditAfter.invitation inv }

/-- The `sendMembershipInvitationEmail` payload both branches dispatch. -/
def membershipMail (env : Env) (email : String) (org : Organization)
    (orgId : String) (userExists : Bool) : EmailPayload :=
  { inviterEmail := envOrDefault env.emailFromAddress "noreply@langfuse.com",
    inviterName := "Organization Admin", sendTo := email,
    orgName := org.name, orgId := orgId, userExists := userExists }

/-- The source guard `project && projectRole && projectRole !== Role.NONE`
deciding whether project-level role data is persisted. -/
def projectWriteRequested : Option Project → Option Role → Bool
  | some _, some pr => decide (pr ≠ Role.NONE)
  | _, _ => false

/-- POST `handleCreateMembership`: embedding of the source handler, returning
the typed response, the post-state and the ordered event trace. -/
def handleCreateMembership (env : Env) (db : DB) (orgId : String)
    (body : CreateMembershipBody) : ApiResponse × DB × List Event :=
  let email := body.email
  let role := body.role
  let user := findUserByEmail db (lowerString email)
  let ev := [Event.lookupUser (lowerString email)]
  let ev := ev ++ [Event.lookupOrg orgId]
  match findOrganization db orgId with
  | none => (ApiResponse.orgNotFound, db, ev)
  | some org =>
    let project := resolveProject db orgId body.projectId
    let ev := ev ++ projectLookupEvents orgId body.projectId
    if strTruthy body.projectId && project.isNone then
      (ApiResponse.projectNotFound, db, ev)
    else
      match user with
      | some u =>
        let ev := ev ++ [Event.lookupMembership orgId u.id]
        match findOrgMembership db orgId u.id with
        | some _ => (ApiResponse.alreadyMember, db, ev)
        | none =>
          let m := newOrgMembership db orgId u role
          let db' : DB :=
            { db with
              organizationMemberships := db.organizationMemberships ++ [m],
              nextId := db.nextId + 1 }
          let a1 := orgMembershipAuditEntry orgId role m
          let ev := ev ++ [Event.createOrgMembership m, Event.audit a1]
          let step : DB × List Event :=
            match project, body.projectRole with
            | some p, some pr =>
              if pr ≠ Role.NONE then
                let pm := newProjectMembership u p pr m
                let a2 := projectMembershipAuditEntry orgId role p u pm
                ({ db' with
                    projectMemberships := db'.projectMemberships ++ [pm] },
                 ev ++ [Event.createProjectMembership pm, Event.audit a2])
              else (db', ev)
            | _, _ => (db', ev)
          let mail := membershipMail env email org orgId true
          (ApiResponse.membershipCreated u.id role u.email u.name,
           step.1, step.2 ++ [Event.sendEmail mail])
      | none =>
        let ev := ev ++ [Event.lookupInvitation orgId (lowerString email)]
        match findInvitation db (lowerString email) orgId with
        | some _ => (ApiResponse.invitationExists, db, ev)
        | none =>
          let inv := invitationRow db orgId body project
          let db' : DB :=
            { db with
              membershipInvitations := db.membershipInvitations ++ [inv],
              nextId := db.nextId + 1 }
          let a := invitationAuditEntry orgId role inv
          let mail := membershipMail env email org orgId false
          (ApiResponse.invitationCreated inv.id email role "PENDING", db',
           ev ++ [Event.createInvitation inv, Event.audit a,
                  Event.sendEmail mail])

/-- Update the (unique-keyed) row matched by `prisma...upsert`'s `where`
clause; the key is unique, so only the first match can exist. -/
def updateFirstRole : List OrganizationMembership → String → String → Role →
    List OrganizationMembership
  | [], _, _, _ => []
  | m :: rest, orgId, userId, role =>
    if orgUserKey orgId userId m then
      { m with role := role } :: rest
    else m :: updateFirstRole rest orgId userId role

/-- `prisma.organizationMembership.upsert` keyed on `orgId_userId`. -/
def upsertOrgMembership (db : DB) (orgId userId : String) (role : Role) :
    OrganizationMembership × DB :=
  match findOrgMembership db orgId userId with
  | some m =>
    ({ m with role := role },
     { db with organizationMemberships :=
        updateFirstRole db.organizationMemberships orgId userId role })
  | none =>
    let m : OrganizationMembership :=
      { id := genId db, orgId := orgId, userId := userId, role := role }
    (m, { db with
          organizationMemberships := db.organizationMemberships ++ [m],
          nextId := db.nextId + 1 })

/-- PUT `handleUpdateMembership`: embedding of the source handler. -/
def handleUpdateMembership (db : DB) (orgId : String) (body : MembershipBody) :
    ApiResponse × DB :=
  match findUserById db body.userId with
  | none => (ApiResponse.userNotFound, db)
  | some user =>
    let r := upsertOrgMembership db orgId body.userId body.role
    (ApiResponse.membershipUpserted r.1.userId r.1.role user.email user.name,
     r.2)

/-- The membership rows for a natural key, for counting. -/
def membershipsFor (db : DB) (orgId userId : String) :
    List OrganizationMembership :=
  db.organizationMemberships.filter (orgUserKey orgId userId)

def isWriteEvent : Event → Bool
  | Event.createOrgMembership _ => true
  | Event.createProjectMembership _ => true
  | Event.createInvitation _ => true
  | _ => false

def isAuditEvent : Event → Bool
  | Event.audit _ => true
  | _ => false

def isEmailEvent : Event → Bool
  | Event.sendEmail _ => true
  | _ => false

/-- The audit event `a` describes exactly the write `e`. -/
def auditDescribes : Event → Event → Bool
  | Event.createOrgMembership m, Event.audit a =>
    decide (a.resourceType = "orgMembership" ∧ a.resourceId = m.id ∧
      a.action = "create" ∧ a.after = AuditAfter.orgMembership m)
  | Event.createProjectMembership pm, Event.audit a =>
    decide (a.resourceType = "projectMembership" ∧
      a.resourceId = pm.projectId ++ "--" ++ pm.userId ∧
      a.action = "create" ∧ a.after = AuditAfter.projectMembership pm)
  | Event.createInvitation i, Event.audit a =>
    decide (a.resourceType = "membershipInvitation" ∧ a.resourceId = i.id ∧
      a.action = "create" ∧ a.after = AuditAfter.invitation i)
  | _, _ => false

/-- Every write is immediately followed by the audit entry describing it,
before anything else happens. -/
def auditsFollowWrites : List Event → Bool
  | [] => true
  | e :: rest =>
    if isWriteEvent e then
      match rest with
      | a :: rest' => auditDescribes e a && auditsFollowWrites rest'
      | [] => false
    else auditsFollowWrites rest

def noWriteOrAudit (tr : List Event) : Bool :=
  tr.all (fun e => !(isWriteEvent e || isAuditEvent e))

/-- No write or audit event ever occurs after an e-mail dispatch. -/
def emailsAfterWritesAndAudits : List Event → Bool
  | [] => true
  | e :: rest =>
    if isEmailEvent e then noWriteOrAudit rest
    else emailsAfterWritesAndAudits rest

def auditEntries (tr : List Event) : List AuditLogEntry :=
  tr.filterMap (fun e =>
    match e with
    | Event.audit a => some a
    | _ => none)

def emailEvents (tr : List Event) : List EmailPayload :=
  tr.filterMap (fun e =>
    match e with
    | Event.sendEmail p => some p
    | _ => none)

/-- The first organization lookup in the trace occurs strictly before the
first user lookup (vacuously true when one of them is missing). -/
def orgLookupPrecedesUserLookup : List Event → Bool
  | [] => true
  | Event.lookupOrg _ :: _ => true
  | Event.lookupUser _ :: _ => false
  | _ :: rest => orgLookupPrecedesUserLookup rest

/-- A trace of pure reads: no write, no audit record, no e-mail. -/
def pureLookups (tr : List Event) : Bool :=
  tr.all (fun e => !(isWriteEvent e || isAuditEvent e || isEmailEvent e))

lemma projectLookupEvents_cases (orgId : String) (pid : Option String) :
    projectLookupEvents orgId pid = [] ∨
    ∃ q, projectLookupEvents orgId pid = [Event.lookupProject q orgId] := by
  cases pid with
  | none => exact Or.inl rfl
  | some s =>
    by_cases h : s = ""
    · exact Or.inl (by simp [projectLookupEvents, h])
    · exact Or.inr ⟨s, by simp [projectLookupEvents, h]⟩

/-- The project-membership rows the existing-user branch adds (at most
one, when a valid project and non-NONE project role were supplied). -/
def projectStepRows (db : DB) (orgId : String) (body : CreateMembershipBody)
    (u : User) : List ProjectMembership :=
  match resolveProject db orgId body.projectId, body.projectRole with
  | some p, some pr =>
    if pr ≠ Role.NONE then
      [newProjectMembership u p pr (newOrgMembership db orgId u body.role)]
    else []
  | _, _ => []

/-- The write/audit events of the conditional project step. -/
def projectStepEvents (db : DB) (orgId : String)
    (body : CreateMembershipBody) (u : User) : List Event :=
  match resolveProject db orgId body.projectId, body.projectRole with
  | some p, some pr =>
    if pr ≠ Role.NONE then
      [Event.createProjectMembership
        (newProjectMembership u p pr (newOrgMembership db orgId u body.role)),
       Event.audit (projectMembershipAuditEntry orgId body.role p u
        (newProjectMembership u p pr (newOrgMembership db orgId u body.role)))]
    else []
  | _, _ => []

/-- The state after a successful existing-user run. -/
def existingUserDB (db : DB) (orgId : String) (body : CreateMembershipBody)
    (u : User) : DB :=
  { db with
    organizationMemberships :=
      db.organizationMemberships ++ [newOrgMembership db orgId u body.role],
    projectMemberships :=
      db.projectMemberships ++ projectStepRows db orgId body u,
    nextId := db.nextId + 1 }

/-- The trace of a successful existing-user run. -/
def existingUserTrace (env : Env) (db : DB) (orgId : String)
    (body : CreateMembershipBody) (u : User) (org : Organization) :
    List Event :=
  [Event.lookupUser (lowerString body.email), Event.lookupOrg orgId] ++
  projectLookupEvents orgId body.projectId ++
  [Event.lookupMembership orgId u.id,
   Event.createOrgMembership (newOrgMembership db orgId u body.role),
   Event.audit (orgMembershipAuditEntry orgId body.role
     (newOrgMembership db orgId u body.role))] ++
  projectStepEvents db orgId body u ++
  [Event.sendEmail (membershipMail env body.email org orgId true)]

/-- The state after a successful new-user run. -/
def newUserDB (db : DB) (orgId : String) (body : CreateMembershipBody) :
    DB :=
  { db with
    membershipInvitations := db.membershipInvitations ++
      [invitationRow db orgId body (resolveProject db orgId body.projectId)],
    nextId := db.nextId + 1 }

/-- The trace of a successful new-user run. -/
def newUserTrace (env : Env) (db : DB) (orgId : String)
    (body : CreateMembershipBody) (org : Organization) : List Event :=
  [Event.lookupUser (lowerString body.email), Event.lookupOrg orgId] ++
  projectLookupEvents orgId body.projectId ++
  [Event.lookupInvitation orgId (lowerString body.email),
   Event.createInvitation
     (invitationRow db orgId body (resolveProject db orgId body.projectId)),
   Event.audit (invitationAuditEntry orgId body.role
     (invitationRow db orgId body (resolveProject db orgId body.projectId))),
   Event.sendEmail (membershipMail env body.email org orgId false)]

/-- Characterization of the existing-user success branch. -/
lemma run_existing_user (env : Env) (db : DB) (orgId : String)
    (body : CreateMembershipBody) (u : User) (org : Organization)
    (hu : findUserByEmail db (lowerString body.email) = some u)
    (horg : findOrganization db orgId = some org)
    (hguard : (strTruthy body.projectId &&
      (resolveProject db orgId body.projectId).isNone) = false)
    (hmem : findOrgMembership db orgId u.id = none) :
    handleCreateMembership env db orgId body =
      (ApiResponse.membershipCreated u.id body.role u.email u.name,
       existingUserDB db orgId body u,
       existingUserTrace env db orgId body u org) := by
  rcases hp : resolveProject db orgId body.projectId with _ | p
  · have hst : strTruthy body.projectId = false := by simpa [hp] using hguard
    simp [handleCreateMembership, hu, horg, hst, hmem, hp,
      existingUserDB, existingUserTrace, projectStepRows, projectStepEvents]
  · rcases hr : body.projectRole with _ | pr
    · simp [handleCreateMembership, hu, horg, hguard, hmem, hp, hr,
        existingUserDB, existingUserTrace, projectStepRows,
        projectStepEvents]
    · by_cases hpr : pr = Role.NONE <;>
        simp [handleCreateMembership, hu, horg, hguard, hmem, hp, hr, hpr,
          existingUserDB, existingUserTrace, projectStepRows,
          projectStepEvents]

/-- Characterization of the new-user success branch. -/
lemma run_new_user (env : Env) (db : DB) (orgId : String)
    (body : CreateMembershipBody) (org : Organization)
    (hu : findUserByEmail db (lowerString body.email) = none)
    (horg : findOrganization db orgId = some org)
    (hguard : (strTruthy body.projectId &&
      (resolveProject db orgId body.projectId).isNone) = false)
    (hinv : findInvitation db (lowerString body.email) orgId = none) :
    handleCreateMembership env db orgId body =
      (ApiResponse.invitationCreated (genId db) body.email body.role
        "PENDING",
       newUserDB db orgId body,
       newUserTrace env db orgId body org) := by
  rcases hp : resolveProject db orgId body.projectId with _ | p
  · have hst : strTruthy body.projectId = false := by simpa [hp] using hguard
    simp [handleCreateMembership, hu, horg, hst, hinv, hp,
      newUserDB, newUserTrace, invitationRow]
  · simp [handleCreateMembership, hu, horg, hguard, hinv, hp,
      newUserDB, newUserTrace, invitationRow]

/-- Characterization of the already-a-member conflict branch. -/
lemma run_already_member (env : Env) (db : DB) (orgId : String)
    (body : CreateMembershipBody) (u : User) (org : Organization)
    (m : OrganizationMembership)
    (hu : findUserByEmail db (lowerString body.email) = some u)
    (horg : findOrganization db orgId = some org)
    (hguard : (strTruthy body.projectId &&
      (resolveProject db orgId body.projectId).isNone) = false)
    (hmem : findOrgMembership db orgId u.id = some m) :
    handleCreateMembership env db orgId body =
      (ApiResponse.alreadyMember, db,
       [Event.lookupUser (lowerString body.email), Event.lookupOrg orgId] ++
       projectLookupEvents orgId body.projectId ++
       [Event.lookupMembership orgId u.id]) := by
  rcases hp : resolveProject db orgId body.projectId with _ | p
  · have hst : strTruthy body.projectId = false := by simpa [hp] using hguard
    simp [handleCreateMembership, hu, horg, hst, hmem, hp]
  · simp [handleCreateMembership, hu, horg, hguard, hmem, hp]

/-- Characterization of the invitation-exists conflict branch. -/
lemma run_invitation_exists (env : Env) (db : DB) (orgId : String)
    (body : CreateMembershipBody) (org : Organization)
    (i : MembershipInvitation)
    (hu : findUserByEmail db (lowerString body.email) = none)
    (horg : findOrganization db orgId = some org)
    (hguard : (strTruthy body.projectId &&
      (resolveProject db orgId body.projectId).isNone) = false)
    (hinv : findInvitation db (lowerString body.email) orgId = some i) :
    handleCreateMembership env db orgId body =
      (ApiResponse.invitationExists, db,
       [Event.lookupUser (lowerString body.email), Event.lookupOrg orgId] ++
       projectLookupEvents orgId body.projectId ++
       [Event.lookupInvitation orgId (lowerString body.email)]) := by
  rcases hp : resolveProject db orgId body.projectId with _ | p
  · have hst : strTruthy body.projectId = false := by simpa [hp] using hguard
    simp [handleCreateMembership, hu, horg, hst, hinv, hp]
  · simp [handleCreateMembership, hu, horg, hguard, hinv, hp]

/-- Characterization of the organization-not-found failure. -/
lemma run_org_not_found (env : Env) (db : DB) (orgId : String)
    (body : CreateMembershipBody)
    (horg : findOrganization db orgId = none) :
    handleCreateMembership env db orgId body =
      (ApiResponse.orgNotFound, db,
       [Event.lookupUser (lowerString body.email), Event.lookupOrg orgId]) := by
  simp [handleCreateMembership, horg]

/-- Characterization of the project-not-found failure. -/
lemma run_project_not_found (env : Env) (db : DB) (orgId : String)
    (body : CreateMembershipBody) (org : Organization)
    (horg : findOrganization db orgId = some org)
    (hguard : (strTruthy body.projectId &&
      (resolveProject db orgId body.projectId).isNone) = true) :
    handleCreateMembership env db orgId body =
      (ApiResponse.projectNotFound, db,
       [Event.lookupUser (lowerString body.email), Event.lookupOrg orgId] ++
       projectLookupEvents orgId body.projectId) := by
  simp only [Bool.and_eq_true] at hguard
  simp [handleCreateMembership, horg, hguard.1, hguard.2,
    Option.isNone_iff_eq_none.mp hguard.2]

lemma auditEntries_append (l1 l2 : List Event) :
    auditEntries (l1 ++ l2) = auditEntries l1 ++ auditEntries l2 :=
  List.filterMap_append l1 l2 _

lemma emailEvents_append (l1 l2 : List Event) :
    emailEvents (l1 ++ l2) = emailEvents l1 ++ emailEvents l2 :=
  List.filterMap_append l1 l2 _

lemma auditEntries_projectLookupEvents (orgId : String)
    (pid : Option String) :
    auditEntries (projectLookupEvents orgId pid) = [] := by
  rcases projectLookupEvents_cases orgId pid with h | ⟨q, h⟩ <;>
    simp [h, auditEntries]

lemma emailEvents_projectLookupEvents (orgId : String) (pid : Option String) :
    emailEvents (projectLookupEvents orgId pid) = [] := by
  rcases projectLookupEvents_cases orgId pid with h | ⟨q, h⟩ <;>
    simp [h, emailEvents]

lemma pureLookups_projectLookupEvents (orgId : String) (pid : Option String) :
    pureLookups (projectLookupEvents orgId pid) = true := by
  rcases projectLookupEvents_cases orgId pid with h | ⟨q, h⟩ <;>
    simp [h, pureLookups, isWriteEvent, isAuditEvent, isEmailEvent]

lemma auditEntries_projectStepEvents_orgType (db : DB) (orgId : String)
    (body : CreateMembershipBody) (u : User) :
    (auditEntries (projectStepEvents db orgId body u)).filter
      (fun a => decide (a.resourceType = "orgMembership")) = [] := by
  unfold projectStepEvents
  rcases resolveProject db orgId body.projectId with _ | p <;>
    rcases body.projectRole with _ | pr <;>
    simp [auditEntries]
  by_cases hpr : pr = Role.NONE <;>
    simp [hpr, auditEntries, projectMembershipAuditEntry]

lemma emailEvents_projectStepEvents (db : DB) (orgId : String)
    (body : CreateMembershipBody) (u : User) :
    emailEvents (projectStepEvents db orgId body u) = [] := by
  unfold projectStepEvents
  rcases resolveProject db orgId body.projectId with _ | p <;>
    rcases body.projectRole with _ | pr <;>
    simp [emailEvents]
  by_cases hpr : pr = Role.NONE <;> simp [hpr, emailEvents]

/-- C1: when the e-mail matches an existing user with no prior membership
for the organization (and the organization and any requested project
resolve), `handleCreateMembership` appends exactly one organization
membership carrying the requested role, records exactly one audit entry
for it, dispatches exactly one notification with `userExists = true`,
creates zero project memberships whenever no valid project plus non-NONE
project-role pair was supplied, and returns `(userId, role, email, name)`. -/
theorem create_existing_user_spec
    (env : Env) (db : DB) (orgId : String) (body : CreateMembershipBody)
    (u : User) (org : Organization)
    (hu : findUserByEmail db (lowerString body.email) = some u)
    (horg : findOrganization db orgId = some org)
    (hguard : (strTruthy body.projectId &&
      (resolveProject db orgId body.projectId).isNone) = false)
    (hmem : findOrgMembership db orgId u.id = none) :
    (handleCreateMembership env db orgId body).1 =
      ApiResponse.membershipCreated u.id body.role u.email u.name ∧
    (handleCreateMembership env db orgId body).2.1.organizationMemberships =
      db.organizationMemberships ++ [newOrgMembership db orgId u body.role] ∧
    (auditEntries (handleCreateMembership env db orgId body).2.2).filter
        (fun a => decide (a.resourceType = "orgMembership")) =
      [orgMembershipAuditEntry orgId body.role
        (newOrgMembership db orgId u body.role)] ∧
    emailEvents (handleCreateMembership env db orgId body).2.2 =
      [membershipMail env body.email org orgId true] ∧
    (projectWriteRequested (resolveProject db orgId body.projectId)
        body.projectRole = false →
      (handleCreateMembership env db orgId body).2.1.projectMemberships =
        db.projectMemberships) := by
  rw [run_existing_user env db orgId body u org hu horg hguard hmem]
  refine ⟨rfl, rfl, ?_, ?_, ?_⟩
  · simp only [existingUserTrace, auditEntries_append, List.filter_append,
      auditEntries_projectLookupEvents, auditEntries_projectStepEvents_orgType]
    simp [auditEntries, orgMembershipAuditEntry]
  · simp only [existingUserTrace, emailEvents_append,
      emailEvents_projectLookupEvents, emailEvents_projectStepEvents]
    simp [emailEvents]
  · intro hw
    unfold projectWriteRequested at hw
    simp only [existingUserDB]
    unfold projectStepRows
    rcases hp : resolveProject db orgId body.projectId with _ | p <;>
      rcases hr : body.projectRole with _ | pr <;>
      simp_all

/-- A concrete environment for witness instances. -/
def wEnv : Env := { emailFromAddress := none }

/-- A concrete user for witness instances. -/
def wAlice : User := { id := "u1", email := "alice@x.com", name := some "Alice" }

/-- A concrete organization for witness instances. -/
def wOrg : Organization := { id := "org1", name := "Org One" }

/-- A concrete live project for witness instances. -/
def wProj : Project := { id := "p1", orgId := "org1", deletedAt := none }

/-- A concrete database for witness instances. -/
def wDb : DB :=
  { users := [wAlice], organizations := [wOrg], projects := [wProj],
    organizationMemberships := [], projectMemberships := [],
    membershipInvitations := [], nextId := 0 }

/-- A concrete request whose e-mail matches the stored user. -/
def wBodyA : CreateMembershipBody :=
  { email := "alice@x.com", role := Role.ADMIN, projectId := none,
    projectRole := none }

/-- A concrete request whose e-mail matches no stored user. -/
def wBodyB : CreateMembershipBody :=
  { email := "bob@x.com", role := Role.MEMBER, projectId := none,
    projectRole := none }

/-- Witness for C1 at a concrete database and request. -/
theorem create_existing_user_spec_witness :
    (handleCreateMembership wEnv wDb "org1" wBodyA).1 =
      ApiResponse.membershipCreated wAlice.id wBodyA.role wAlice.email
        wAlice.name :=
  (create_existing_user_spec wEnv wDb "org1" wBodyA wAlice wOrg
    (by decide) (by decide) (by decide) (by decide)).1

/-- C2: when no user account matches the e-mail and no invitation exists for
the pair (orgId, e-mail), `handleCreateMembership` appends exactly one
membership invitation, records exactly one audit entry, dispatches exactly
one notification with `userExists = false`, and returns the descriptor
`(invitationId, email, role, status = PENDING)`. -/
theorem create_new_user_spec
    (env : Env) (db : DB) (orgId : String) (body : CreateMembershipBody)
    (org : Organization)
    (hu : findUserByEmail db (lowerString body.email) = none)
    (horg : findOrganization db orgId = some org)
    (hguard : (strTruthy body.projectId &&
      (resolveProject db orgId body.projectId).isNone) = false)
    (hinv : findInvitation db (lowerString body.email) orgId = none) :
    (handleCreateMembership env db orgId body).1 =
      ApiResponse.invitationCreated (genId db) body.email body.role
        "PENDING" ∧
    (handleCreateMembership env db orgId body).2.1.membershipInvitations =
      db.membershipInvitations ++
        [invitationRow db orgId body
          (resolveProject db orgId body.projectId)] ∧
    auditEntries (handleCreateMembership env db orgId body).2.2 =
      [invitationAuditEntry orgId body.role
        (invitationRow db orgId body
          (resolveProject db orgId body.projectId))] ∧
    emailEvents (handleCreateMembership env db orgId body).2.2 =
      [membershipMail env body.email org orgId false] := by
  rw [run_new_user env db orgId body org hu horg hguard hinv]
  refine ⟨rfl, rfl, ?_, ?_⟩
  · simp only [newUserTrace, auditEntries_append,
      auditEntries_projectLookupEvents]
    simp [auditEntries]
  · simp only [newUserTrace, emailEvents_append,
      emailEvents_projectLookupEvents]
    simp [emailEvents]

/-- Witness for C2 at a concrete database and request. -/
theorem create_new_user_spec_witness :
    (handleCreateMembership wEnv wDb "org1" wBodyB).1 =
      ApiResponse.invitationCreated (genId wDb) wBodyB.email wBodyB.role
        "PENDING" :=
  (create_new_user_spec wEnv wDb "org1" wBodyB wOrg
    (by decide) (by decide) (by decide) (by decide)).1

lemma findUserByEmail_congr (db' db : DB) (h : db'.users = db.users)
    (e : String) : findUserByEmail db' e = findUserByEmail db e := by
  simp [findUserByEmail, h]

lemma findUserById_congr (db' db : DB) (h : db'.users = db.users)
    (i : String) : findUserById db' i = findUserById db i := by
  simp [findUserById, h]

lemma findOrganization_congr (db' db : DB)
    (h : db'.organizations = db.organizations) (i : String) :
    findOrganization db' i = findOrganization db i := by
  simp [findOrganization, h]

lemma resolveProject_congr (db' db : DB) (h : db'.projects = db.projects)
    (orgId : String) (pid : Option String) :
    resolveProject db' orgId pid = resolveProject db orgId pid := by
  cases pid <;> simp [resolveProject, findProjectInOrg, h]

lemma pureLookups_append (l1 l2 : List Event) :
    pureLookups (l1 ++ l2) = (pureLookups l1 && pureLookups l2) :=
  List.all_append

/-- C3: calling create twice for a user who becomes a member on the first
call succeeds first and then fails with Conflict(already-a-member): the
second call changes nothing in the store, performs no write, records no
audit entry and sends no e-mail. -/
theorem create_twice_existing_user
    (env : Env) (db : DB) (orgId : String) (body : CreateMembershipBody)
    (u : User) (org : Organization)
    (hu : findUserByEmail db (lowerString body.email) = some u)
    (horg : findOrganization db orgId = some org)
    (hguard : (strTruthy body.projectId &&
      (resolveProject db orgId body.projectId).isNone) = false)
    (hmem : findOrgMembership db orgId u.id = none) :
    (handleCreateMembership env db orgId body).1 =
      ApiResponse.membershipCreated u.id body.role u.email u.name ∧
    (handleCreateMembership env
      (handleCreateMembership env db orgId body).2.1 orgId body).1 =
      ApiResponse.alreadyMember ∧
    (handleCreateMembership env
      (handleCreateMembership env db orgId body).2.1 orgId body).2.1 =
      (handleCreateMembership env db orgId body).2.1 ∧
    pureLookups (handleCreateMembership env
      (handleCreateMembership env db orgId body).2.1 orgId body).2.2 =
      true := by
  rw [run_existing_user env db orgId body u org hu horg hguard hmem]
  have hu1 : findUserByEmail (existingUserDB db orgId body u)
      (lowerString body.email) = some u :=
    (findUserByEmail_congr _ db rfl _).trans hu
  have horg1 : findOrganization (existingUserDB db orgId body u) orgId =
      some org :=
    (findOrganization_congr _ db rfl _).trans horg
  have hguard1 : (strTruthy body.projectId &&
      (resolveProject (existingUserDB db orgId body u) orgId
        body.projectId).isNone) = false := by
    rw [resolveProject_congr (existingUserDB db orgId body u) db rfl]
    exact hguard
  have hmem1 : findOrgMembership (existingUserDB db orgId body u) orgId
      u.id = some (newOrgMembership db orgId u body.role) := by
    simp only [findOrgMembership] at hmem ⊢
    rw [show (existingUserDB db orgId body u).organizationMemberships =
      db.organizationMemberships ++ [newOrgMembership db orgId u body.role]
      from rfl, List.find?_append, hmem]
    simp [newOrgMembership, orgUserKey]
  rw [run_already_member env (existingUserDB db orgId body u) orgId body u
    org (newOrgMembership db orgId u body.role) hu1 horg1 hguard1 hmem1]
  refine ⟨rfl, rfl, rfl, ?_⟩
  rw [pureLookups_append, pureLookups_append,
    pureLookups_projectLookupEvents]
  simp [pureLookups, isWriteEvent, isAuditEvent, isEmailEvent]

/-- Witness for C3 at a concrete database and request. -/
theorem create_twice_existing_user_witness :
    (handleCreateMembership wEnv
      (handleCreateMembership wEnv wDb "org1" wBodyA).2.1 "org1" wBodyA).1 =
      ApiResponse.alreadyMember :=
  (create_twice_existing_user wEnv wDb "org1" wBodyA wAlice wOrg
    (by decide) (by decide) (by decide) (by decide)).2.1

/-- C4: calling create twice for an e-mail with no user account yields a
PENDING invitation first and Conflict(invitation-exists) second, triggered
by the invitation row stored by the first call; the second call creates no
second invitation, performs no write, records no audit entry and sends no
e-mail. -/
theorem create_twice_new_user
    (env : Env) (db : DB) (orgId : String) (body : CreateMembershipBody)
    (org : Organization)
    (hu : findUserByEmail db (lowerString body.email) = none)
    (horg : findOrganization db orgId = some org)
    (hguard : (strTruthy body.projectId &&
      (resolveProject db orgId body.projectId).isNone) = false)
    (hinv : findInvitation db (lowerString body.email) orgId = none) :
    (handleCreateMembership env db orgId body).1 =
      ApiResponse.invitationCreated (genId db) body.email body.role
        "PENDING" ∧
    (handleCreateMembership env
      (handleCreateMembership env db orgId body).2.1 orgId body).1 =
      ApiResponse.invitationExists ∧
    (handleCreateMembership env
      (handleCreateMembership env db orgId body).2.1 orgId body).2.1 =
      (handleCreateMembership env db orgId body).2.1 ∧
    pureLookups (handleCreateMembership env
      (handleCreateMembership env db orgId body).2.1 orgId body).2.2 =
      true := by
  rw [run_new_user env db orgId body org hu horg hguard hinv]
  have hu1 : findUserByEmail (newUserDB db orgId body)
      (lowerString body.email) = none :=
    (findUserByEmail_congr _ db rfl _).trans hu
  have horg1 : findOrganization (newUserDB db orgId body) orgId = some org :=
    (findOrganization_congr _ db rfl _).trans horg
  have hguard1 : (strTruthy body.projectId &&
      (resolveProject (newUserDB db orgId body) orgId
        body.projectId).isNone) = false := by
    rw [resolveProject_congr (newUserDB db orgId body) db rfl]
    exact hguard
  have hinv1 : findInvitation (newUserDB db orgId body)
      (lowerString body.email) orgId =
      some (invitationRow db orgId body
        (resolveProject db orgId body.projectId)) := by
    simp only [findInvitation] at hinv ⊢
    rw [show (newUserDB db orgId body).membershipInvitations =
      db.membershipInvitations ++
        [invitationRow db orgId body (resolveProject db orgId body.projectId)]
      from rfl, List.find?_append, hinv]
    simp [invitationRow]
  rw [run_invitation_exists env (newUserDB db orgId body) orgId body org
    (invitationRow db orgId body (resolveProject db orgId body.projectId))
    hu1 horg1 hguard1 hinv1]
  refine ⟨rfl, rfl, rfl, ?_⟩
  rw [pureLookups_append, pureLookups_append,
    pureLookups_projectLookupEvents]
  simp [pureLookups, isWriteEvent, isAuditEvent, isEmailEvent]

/-- Witness for C4 at a concrete database and request. -/
theorem create_twice_new_user_witness :
    (handleCreateMembership wEnv
      (handleCreateMembership wEnv wDb "org1" wBodyB).2.1 "org1" wBodyB).1 =
      ApiResponse.invitationExists :=
  (create_twice_new_user wEnv wDb "org1" wBodyB wOrg
    (by decide) (by decide) (by decide) (by decide)).2.1

/-- C5: project-level role data is persisted iff the supplied `projectId`
resolves to a live project of the organization and the supplied
`projectRole` is non-NONE: the existing-user branch then creates exactly
one ProjectMembership (zero otherwise), the new-user branch sets the
invitation's `projectId`/`projectRole` fields (both null otherwise), and
an unresolved, foreign or soft-deleted project fails the request with
NotFound(project) before any write. -/
theorem project_role_persistence
    (env : Env) (db : DB) (orgId : String) (body : CreateMembershipBody) :
    (∀ u org, findUserByEmail db (lowerString body.email) = some u →
      findOrganization db orgId = some org →
      (strTruthy body.projectId &&
        (resolveProject db orgId body.projectId).isNone) = false →
      findOrgMembership db orgId u.id = none →
      ((∀ p pr, resolveProject db orgId body.projectId = some p →
          body.projectRole = some pr → pr ≠ Role.NONE →
          (handleCreateMembership env db orgId body).2.1.projectMemberships =
            db.projectMemberships ++
              [newProjectMembership u p pr
                (newOrgMembership db orgId u body.role)]) ∧
        (projectWriteRequested (resolveProject db orgId body.projectId)
            body.projectRole = false →
          (handleCreateMembership env db orgId body).2.1.projectMemberships =
            db.projectMemberships))) ∧
    (∀ org, findUserByEmail db (lowerString body.email) = none →
      findOrganization db orgId = some org →
      (strTruthy body.projectId &&
        (resolveProject db orgId body.projectId).isNone) = false →
      findInvitation db (lowerString body.email) orgId = none →
      ((handleCreateMembership env db orgId body).2.1.membershipInvitations =
        db.membershipInvitations ++
          [invitationRow db orgId body
            (resolveProject db orgId body.projectId)] ∧
       (∀ p pr, resolveProject db orgId body.projectId = some p →
          body.projectRole = some pr → pr ≠ Role.NONE →
          (invitationRow db orgId body
            (resolveProject db orgId body.projectId)).projectId =
              some p.id ∧
          (invitationRow db orgId body
            (resolveProject db orgId body.projectId)).projectRole =
              some pr) ∧
       (projectWriteRequested (resolveProject db orgId body.projectId)
            body.projectRole = false →
          (invitationRow db orgId body
            (resolveProject db orgId body.projectId)).projectId = none ∧
          (invitationRow db orgId body
            (resolveProject db orgId body.projectId)).projectRole =
              none))) ∧
    (∀ org, findOrganization db orgId = some org →
      strTruthy body.projectId = true →
      resolveProject db orgId body.projectId = none →
      (handleCreateMembership env db orgId body).1 =
        ApiResponse.projectNotFound ∧
      (handleCreateMembership env db orgId body).2.1 = db) := by
  refine ⟨?_, ?_, ?_⟩
  · intro u org hu horg hguard hmem
    rw [run_existing_user env db orgId body u org hu horg hguard hmem]
    constructor
    · intro p pr hp hr hpr
      simp [existingUserDB, projectStepRows, hp, hr, hpr]
    · intro hw
      unfold projectWriteRequested at hw
      simp only [existingUserDB]
      unfold projectStepRows
      rcases hp : resolveProject db orgId body.projectId with _ | p <;>
        rcases hr : body.projectRole with _ | pr <;> simp_all
  · intro org hu horg hguard hinv
    rw [run_new_user env db orgId body org hu horg hguard hinv]
    refine ⟨rfl, ?_, ?_⟩
    · intro p pr hp hr hpr
      simp [invitationRow, hp, hr, hpr]
    · intro hw
      unfold projectWriteRequested at hw
      unfold invitationRow
      rcases hp : resolveProject db orgId body.projectId with _ | p <;>
        rcases hr : body.projectRole with _ | pr <;> simp_all
  · intro org horg hstr hres
    rw [run_project_not_found env db orgId body org horg
      (by simp [hstr, hres])]
    exact ⟨rfl, rfl⟩

/-- A concrete request carrying a valid project and a non-NONE role. -/
def wBodyP : CreateMembershipBody :=
  { email := "alice@x.com", role := Role.ADMIN, projectId := some "p1",
    projectRole := some Role.MEMBER }

/-- A concrete request naming a project id that does not resolve. -/
def wBodyBadP : CreateMembershipBody :=
  { email := "alice@x.com", role := Role.ADMIN, projectId := some "nope",
    projectRole := some Role.MEMBER }

/-- Whether the trace contains an organization-membership write. -/
def hasOrgMembershipCreate (tr : List Event) : Bool :=
  tr.any (fun e =>
    match e with
    | Event.createOrgMembership _ => true
    | _ => false)

/-- Whether the trace contains an invitation write. -/
def hasInvitationCreate (tr : List Event) : Bool :=
  tr.any (fun e =>
    match e with
    | Event.createInvitation _ => true
    | _ => false)

/-- Whether the trace contains an e-mail dispatch with the given
`userExists` flag. -/
def hasEmailWithUserExists (tr : List Event) (b : Bool) : Bool :=
  tr.any (fun e =>
    match e with
    | Event.sendEmail p => p.userExists == b
    | _ => false)

/-- Witness for C5: a valid project pair persists one row; an unresolved
project fails with NotFound(project). -/
theorem project_role_persistence_witness :
    (handleCreateMembership wEnv wDb "org1" wBodyP).2.1.projectMemberships =
      wDb.projectMemberships ++
        [newProjectMembership wAlice wProj Role.MEMBER
          (newOrgMembership wDb "org1" wAlice Role.ADMIN)] ∧
    (handleCreateMembership wEnv wDb "org1" wBodyBadP).1 =
      ApiResponse.projectNotFound :=
  ⟨((project_role_persistence wEnv wDb "org1" wBodyP).1 wAlice wOrg
      (by decide) (by decide) (by decide) (by decide)).1 wProj Role.MEMBER
      (by decide) (by decide) (by decide),
   (((project_role_persistence wEnv wDb "org1" wBodyBadP).2.2 wOrg
      (by decide) (by decide) (by decide)).1)⟩

/-- C6: in every run of `handleCreateMembership`, each state-changing write
is immediately followed by the audit entry describing it (before any
further write), every notification is dispatched strictly after all writes
and audit entries, and an e-mail with `userExists = true` (resp. `false`)
only occurs in runs that created an organization membership (resp. an
invitation). -/
theorem audit_and_notification_ordering
    (env : Env) (db : DB) (orgId : String) (body : CreateMembershipBody) :
    auditsFollowWrites (handleCreateMembership env db orgId body).2.2 =
      true ∧
    emailsAfterWritesAndAudits
      (handleCreateMembership env db orgId body).2.2 = true ∧
    (hasEmailWithUserExists (handleCreateMembership env db orgId body).2.2
        true = true →
      hasOrgMembershipCreate
        (handleCreateMembership env db orgId body).2.2 = true) ∧
    (hasEmailWithUserExists (handleCreateMembership env db orgId body).2.2
        false = true →
      hasInvitationCreate
        (handleCreateMembership env db orgId body).2.2 = true) := by
  rcases horg : findOrganization db orgId with _ | org
  · rw [run_org_not_found env db orgId body horg]
    simp [auditsFollowWrites, emailsAfterWritesAndAudits, isWriteEvent,
      isEmailEvent, hasEmailWithUserExists, hasOrgMembershipCreate,
      hasInvitationCreate]
  · by_cases hguard : (strTruthy body.projectId &&
      (resolveProject db orgId body.projectId).isNone) = true
    · rw [run_project_not_found env db orgId body org horg hguard]
      rcases projectLookupEvents_cases orgId body.projectId with
          hpl | ⟨q, hpl⟩ <;>
        simp [hpl, auditsFollowWrites, emailsAfterWritesAndAudits,
          isWriteEvent, isEmailEvent, hasEmailWithUserExists,
          hasOrgMembershipCreate, hasInvitationCreate]
    · have hguard' : (strTruthy body.projectId &&
          (resolveProject db orgId body.projectId).isNone) = false := by
        cases h : (strTruthy body.projectId &&
            (resolveProject db orgId body.projectId).isNone)
        · rfl
        · exact absurd h hguard
      rcases hu : findUserByEmail db (lowerString body.email) with _ | u
      · rcases hinv : findInvitation db (lowerString body.email) orgId with
            _ | i
        · rw [run_new_user env db orgId body org hu horg hguard' hinv]
          rcases projectLookupEvents_cases orgId body.projectId with
              hpl | ⟨q, hpl⟩ <;>
            simp [newUserTrace, hpl, auditsFollowWrites, auditDescribes,
              emailsAfterWritesAndAudits, noWriteOrAudit, isWriteEvent,
              isAuditEvent, isEmailEvent, hasEmailWithUserExists,
              hasOrgMembershipCreate, hasInvitationCreate,
              invitationAuditEntry, membershipMail]
        · rw [run_invitation_exists env db orgId body org i hu horg hguard'
            hinv]
          rcases projectLookupEvents_cases orgId body.projectId with
              hpl | ⟨q, hpl⟩ <;>
            simp [hpl, auditsFollowWrites, emailsAfterWritesAndAudits,
              isWriteEvent, isEmailEvent, hasEmailWithUserExists,
              hasOrgMembershipCreate, hasInvitationCreate]
      · rcases hmem : findOrgMembership db orgId u.id with _ | m
        · rw [run_existing_user env db orgId body u org hu horg hguard' hmem]
          unfold existingUserTrace projectStepEvents
          rcases projectLookupEvents_cases orgId body.projectId with
              hpl | ⟨q, hpl⟩ <;>
            rcases hp : resolveProject db orgId body.projectId with _ | p <;>
            rcases hr : body.projectRole with _ | pr <;>
            (try by_cases hpr : pr = Role.NONE) <;>
            simp_all [auditsFollowWrites, auditDescribes,
              emailsAfterWritesAndAudits, noWriteOrAudit, isWriteEvent,
              isAuditEvent, isEmailEvent, hasEmailWithUserExists,
              hasOrgMembershipCreate, hasInvitationCreate,
              orgMembershipAuditEntry, projectMembershipAuditEntry,
              newProjectMembership, newOrgMembership, membershipMail]
        · rw [run_already_member env db orgId body u org m hu horg hguard'
            hmem]
          rcases projectLookupEvents_cases orgId body.projectId with
              hpl | ⟨q, hpl⟩ <;>
            simp [hpl, auditsFollowWrites, emailsAfterWritesAndAudits,
              isWriteEvent, isEmailEvent, hasEmailWithUserExists,
              hasOrgMembershipCreate, hasInvitationCreate]

/-- Witness for C6: the concrete existing-user run sends its e-mail only
with the membership write present. -/
theorem audit_and_notification_ordering_witness :
    hasOrgMembershipCreate
      (handleCreateMembership wEnv wDb "org1" wBodyA).2.2 = true :=
  (audit_and_notification_ordering wEnv wDb "org1" wBodyA).2.2.1 (by decide)

/-- C7 counterexample: the claim that the organization lookup precedes the
user lookup fails on this concrete run — the first store call of the trace
is the user lookup, so `orgLookupPrecedesUserLookup` is false. -/
theorem org_lookup_first_counterexample :
    (handleCreateMembership wEnv wDb "org1" wBodyA).2.2.head? =
      some (Event.lookupUser "alice@x.com") ∧
    orgLookupPrecedesUserLookup
      (handleCreateMembership wEnv wDb "org1" wBodyA).2.2 = false := by
  decide

/-- C7 (amended): in every run the user lookup by lowercased e-mail is
issued first, the organization lookup second — still failing with
NotFound(organization) when the organization is absent — and the project
lookup third when a truthy `projectId` was supplied and the organization
resolved. -/
theorem user_lookup_precedes_org_lookup
    (env : Env) (db : DB) (orgId : String) (body : CreateMembershipBody) :
    (handleCreateMembership env db orgId body).2.2.take 2 =
      [Event.lookupUser (lowerString body.email), Event.lookupOrg orgId] ∧
    (findOrganization db orgId = none →
      (handleCreateMembership env db orgId body).1 =
        ApiResponse.orgNotFound) ∧
    (∀ o pid, findOrganization db orgId = some o →
      body.projectId = some pid → pid ≠ "" →
      (handleCreateMembership env db orgId body).2.2.take 3 =
        [Event.lookupUser (lowerString body.email), Event.lookupOrg orgId,
         Event.lookupProject pid orgId]) := by
  rcases horg : findOrganization db orgId with _ | org
  · rw [run_org_not_found env db orgId body horg]
    exact ⟨rfl, fun _ => rfl, fun o pid h => by simp [horg] at h⟩
  · by_cases hguard : (strTruthy body.projectId &&
      (resolveProject db orgId body.projectId).isNone) = true
    · rw [run_project_not_found env db orgId body org horg hguard]
      refine ⟨by simp, by simp [horg], ?_⟩
      intro o pid hsome hpid hne
      simp [hpid, projectLookupEvents, hne]
    · have hguard' : (strTruthy body.projectId &&
          (resolveProject db orgId body.projectId).isNone) = false := by
        cases h : (strTruthy body.projectId &&
            (resolveProject db orgId body.projectId).isNone)
        · rfl
        · exact absurd h hguard
      rcases hu : findUserByEmail db (lowerString body.email) with _ | u
      · rcases hinv : findInvitation db (lowerString body.email) orgId with
            _ | i
        · rw [run_new_user env db orgId body org hu horg hguard' hinv]
          refine ⟨by simp [newUserTrace], by simp [horg], ?_⟩
          intro o pid hsome hpid hne
          simp [newUserTrace, hpid, projectLookupEvents, hne]
        · rw [run_invitation_exists env db orgId body org i hu horg hguard'
            hinv]
          refine ⟨by simp, by simp [horg], ?_⟩
          intro o pid hsome hpid hne
          simp [hpid, projectLookupEvents, hne]
      · rcases hmem : findOrgMembership db orgId u.id with _ | m
        · rw [run_existing_user env db orgId body u org hu horg hguard' hmem]
          refine ⟨by simp [existingUserTrace], by simp [horg], ?_⟩
          intro o pid hsome hpid hne
          simp [existingUserTrace, hpid, projectLookupEvents, hne]
        · rw [run_already_member env db orgId body u org m hu horg hguard'
            hmem]
          refine ⟨by simp, by simp [horg], ?_⟩
          intro o pid hsome hpid hne
          simp [hpid, projectLookupEvents, hne]

/-- Witness for the amended C7: a concrete absent organization fails with
NotFound(organization), and a concrete valid project is looked up third. -/
theorem user_lookup_precedes_org_lookup_witness :
    (handleCreateMembership wEnv wDb "missing" wBodyA).1 =
      ApiResponse.orgNotFound ∧
    (handleCreateMembership wEnv wDb "org1" wBodyP).2.2.take 3 =
      [Event.lookupUser "alice@x.com", Event.lookupOrg "org1",
       Event.lookupProject "p1" "org1"] :=
  ⟨(user_lookup_precedes_org_lookup wEnv wDb "missing" wBodyA).2.1
      (by decide),
   (user_lookup_precedes_org_lookup wEnv wDb "org1" wBodyP).2.2 wOrg "p1"
      (by decide) (by decide) (by decide)⟩

/-- Whether the trace contains an organization-membership lookup (the
existing-user branch was entered). -/
def hasMembershipLookup (tr : List Event) : Bool :=
  tr.any (fun e =>
    match e with
    | Event.lookupMembership _ _ => true
    | _ => false)

/-- A stored user whose e-mail contains an upper-case letter. -/
def cCarol : User :=
  { id := "u2", email := "Carol@x.com", name := some "Carol" }

/-- A database holding `cCarol`. -/
def cDb : DB :=
  { users := [cCarol], organizations := [wOrg], projects := [wProj],
    organizationMemberships := [], projectMemberships := [],
    membershipInvitations := [], nextId := 0 }

/-- A request whose e-mail differs from `cCarol`'s only in letter case. -/
def cBody : CreateMembershipBody :=
  { email := "carol@X.COM", role := Role.MEMBER, projectId := none,
    projectRole := none }

/-- C8 counterexample: the stored user's e-mail differs from the request
e-mail only in letter case, yet the lookup does not find the user — the
run takes the new-user branch and creates an invitation instead. -/
theorem case_insensitive_match_counterexample :
    cCarol ∈ cDb.users ∧
    lowerString cCarol.email = lowerString cBody.email ∧
    findUserByEmail cDb (lowerString cBody.email) = none ∧
    (handleCreateMembership wEnv cDb "org1" cBody).1 =
      ApiResponse.invitationCreated "id_0" "carol@X.COM" Role.MEMBER
        "PENDING" :=
  ⟨by simp [cDb], by decide, by decide, by decide⟩

/-- C8 (amended): the user lookup and the invitation-conflict key are
case-insensitive in the request e-mail only — the request e-mail is
lowercased and compared for exact equality with the stored value, so a
stored user (or invitation) is found exactly when its stored e-mail equals
the lowercased request e-mail; stored values with other letter case defeat
the match. -/
theorem email_match_lowercase_exact
    (env : Env) (db : DB) (orgId : String) (body : CreateMembershipBody)
    (org : Organization)
    (horg : findOrganization db orgId = some org)
    (hguard : (strTruthy body.projectId &&
      (resolveProject db orgId body.projectId).isNone) = false) :
    ((∀ v ∈ db.users, v.email ≠ lowerString body.email) →
      hasMembershipLookup (handleCreateMembership env db orgId body).2.2 =
        false) ∧
    ((∃ v ∈ db.users, v.email = lowerString body.email) →
      hasMembershipLookup (handleCreateMembership env db orgId body).2.2 =
        true) ∧
    ((findUserByEmail db (lowerString body.email) = none ∧
      ∃ i ∈ db.membershipInvitations,
        i.email = lowerString body.email ∧ i.orgId = orgId) →
      (handleCreateMembership env db orgId body).1 =
        ApiResponse.invitationExists) := by
  refine ⟨?_, ?_, ?_⟩
  · intro h
    have hu : findUserByEmail db (lowerString body.email) = none := by
      unfold findUserByEmail
      exact List.find?_eq_none.mpr (fun x hx => by simpa using h x hx)
    rcases hinv : findInvitation db (lowerString body.email) orgId with
        _ | i
    · rw [run_new_user env db orgId body org hu horg hguard hinv]
      rcases projectLookupEvents_cases orgId body.projectId with
          hpl | ⟨q, hpl⟩ <;>
        simp [newUserTrace, hpl, hasMembershipLookup]
    · rw [run_invitation_exists env db orgId body org i hu horg hguard hinv]
      rcases projectLookupEvents_cases orgId body.projectId with
          hpl | ⟨q, hpl⟩ <;>
        simp [hpl, hasMembershipLookup]
  · intro h
    obtain ⟨v, hv, he⟩ := h
    have hsome : (findUserByEmail db (lowerString body.email)).isSome := by
      unfold findUserByEmail
      exact List.find?_isSome.mpr ⟨v, hv, by simpa using he⟩
    obtain ⟨u, hu⟩ := Option.isSome_iff_exists.mp hsome
    rcases hmem : findOrgMembership db orgId u.id with _ | m
    · rw [run_existing_user env db orgId body u org hu horg hguard hmem]
      rcases projectLookupEvents_cases orgId body.projectId with
          hpl | ⟨q, hpl⟩ <;>
        simp [existingUserTrace, hpl, hasMembershipLookup]
    · rw [run_already_member env db orgId body u org m hu horg hguard hmem]
      rcases projectLookupEvents_cases orgId body.projectId with
          hpl | ⟨q, hpl⟩ <;>
        simp [hpl, hasMembershipLookup]
  · intro h
    obtain ⟨hu, i, hi, hie, hio⟩ := h
    have hsome : (findInvitation db (lowerString body.email) orgId).isSome := by
      unfold findInvitation
      exact List.find?_isSome.mpr ⟨i, hi, by simp [hie, hio]⟩
    obtain ⟨i', hi'⟩ := Option.isSome_iff_exists.mp hsome
    rw [run_invitation_exists env db orgId body org i' hu horg hguard hi']

/-- Witness for the amended C8: a stored lowercase e-mail is found (the
existing-user branch runs); an unknown e-mail is not (no membership
lookup occurs). -/
theorem email_match_lowercase_exact_witness :
    hasMembershipLookup
      (handleCreateMembership wEnv wDb "org1" wBodyA).2.2 = true ∧
    hasMembershipLookup
      (handleCreateMembership wEnv wDb "org1" wBodyB).2.2 = false :=
  ⟨(email_match_lowercase_exact wEnv wDb "org1" wBodyA wOrg (by decide)
      (by decide)).2.1 ⟨wAlice, by decide, by decide⟩,
   (email_match_lowercase_exact wEnv wDb "org1" wBodyB wOrg (by decide)
      (by decide)).1 (by decide)⟩

lemma orgUserKey_update (orgId userId : String)
    (x : OrganizationMembership) (role : Role) :
    orgUserKey orgId userId { x with role := role } =
      orgUserKey orgId userId x := by
  simp [orgUserKey]

lemma updateFirstRole_length (l : List OrganizationMembership)
    (orgId userId : String) (role : Role) :
    (updateFirstRole l orgId userId role).length = l.length := by
  induction l with
  | nil => rfl
  | cons x t ih =>
    cases hb : orgUserKey orgId userId x <;>
      simp [updateFirstRole, hb, ih]

lemma updateFirstRole_of_none (l : List OrganizationMembership)
    (orgId userId : String) (role : Role)
    (h : l.find? (orgUserKey orgId userId) = none) :
    updateFirstRole l orgId userId role = l := by
  induction l with
  | nil => rfl
  | cons x t ih =>
    cases hb : orgUserKey orgId userId x
    · simp only [List.find?_cons, hb] at h
      simp [updateFirstRole, hb, ih h]
    · simp [List.find?_cons, hb] at h

lemma updateFirstRole_append_left (l1 l2 : List OrganizationMembership)
    (orgId userId : String) (role : Role)
    (h : l1.find? (orgUserKey orgId userId) = none) :
    updateFirstRole (l1 ++ l2) orgId userId role =
      l1 ++ updateFirstRole l2 orgId userId role := by
  induction l1 with
  | nil => rfl
  | cons x t ih =>
    cases hb : orgUserKey orgId userId x
    · simp only [List.find?_cons, hb] at h
      simp [updateFirstRole, hb, ih h]
    · simp [List.find?_cons, hb] at h

lemma find?_updateFirstRole (l : List OrganizationMembership)
    (orgId userId : String) (role : Role) :
    (updateFirstRole l orgId userId role).find?
        (orgUserKey orgId userId) =
      (l.find? (orgUserKey orgId userId)).map
        (fun m => { m with role := role }) := by
  induction l with
  | nil => rfl
  | cons x t ih =>
    cases hb : orgUserKey orgId userId x <;>
      simp [updateFirstRole, hb, List.find?_cons, orgUserKey_update, ih]

lemma filter_updateFirstRole_single (l : List OrganizationMembership)
    (m : OrganizationMembership) (orgId userId : String) (role : Role)
    (hfind : l.find? (orgUserKey orgId userId) = some m)
    (hkey : (l.filter (orgUserKey orgId userId)).length ≤ 1) :
    (updateFirstRole l orgId userId role).filter
        (orgUserKey orgId userId) = [{ m with role := role }] := by
  induction l with
  | nil => cases hfind
  | cons x t ih =>
    cases hb : orgUserKey orgId userId x
    · simp only [List.find?_cons, hb] at hfind
      rw [List.filter_cons_of_neg (by simp [hb])] at hkey
      simp [updateFirstRole, hb, List.filter_cons, ih hfind hkey]
    · have hm : m = x := by
        simp [List.find?_cons, hb] at hfind
        exact hfind.symm
      rw [List.filter_cons_of_pos hb] at hkey
      simp only [List.length_cons] at hkey
      have ht : t.filter (orgUserKey orgId userId) = [] :=
        List.length_eq_zero.mp (by omega)
      subst hm
      simp [updateFirstRole, hb, List.filter_cons, orgUserKey_update, ht]

lemma filter_not_updateFirstRole (l : List OrganizationMembership)
    (orgId userId : String) (role : Role) :
    (updateFirstRole l orgId userId role).filter
        (fun m => !orgUserKey orgId userId m) =
      l.filter (fun m => !orgUserKey orgId userId m) := by
  induction l with
  | nil => rfl
  | cons x t ih =>
    cases hb : orgUserKey orgId userId x <;>
      simp [updateFirstRole, hb, List.filter_cons, orgUserKey_update, ih]

lemma updateFirstRole_idem (l : List OrganizationMembership)
    (orgId userId : String) (role : Role) :
    updateFirstRole (updateFirstRole l orgId userId role) orgId userId
      role = updateFirstRole l orgId userId role := by
  induction l with
  | nil => rfl
  | cons x t ih =>
    cases hb : orgUserKey orgId userId x <;>
      simp [updateFirstRole, hb, orgUserKey_update, ih]

/-- The membership row the upsert's create branch inserts. -/
def upsertCreatedRow (db : DB) (orgId userId : String) (role : Role) :
    OrganizationMembership :=
  { id := genId db, orgId := orgId, userId := userId, role := role }

/-- The state after the upsert's create branch. -/
def upsertCreateDB (db : DB) (orgId userId : String) (role : Role) : DB :=
  { db with
    organizationMemberships :=
      db.organizationMemberships ++ [upsertCreatedRow db orgId userId role],
    nextId := db.nextId + 1 }

/-- The state after the upsert's update branch. -/
def upsertUpdateDB (db : DB) (orgId userId : String) (role : Role) : DB :=
  { db with
    organizationMemberships :=
      updateFirstRole db.organizationMemberships orgId userId role }

/-- C9: `handleUpdateMembership` is an idempotent upsert keyed on
(orgId, userId): for an existing user it creates exactly one membership
row with the given role when none exists, otherwise it overwrites only
that row's role in place; repeating the call changes nothing further and
leaves exactly one row for the key whose role equals the last call's
argument, and the result returned is `(userId, role, email, name)`. -/
theorem upsert_membership_spec
    (db : DB) (orgId userId : String) (role : Role) (u : User)
    (hu : findUserById db userId = some u)
    (hkey : (membershipsFor db orgId userId).length ≤ 1) :
    (handleUpdateMembership db orgId
      { userId := userId, role := role }).1 =
      ApiResponse.membershipUpserted userId role u.email u.name ∧
    (membershipsFor (handleUpdateMembership db orgId
      { userId := userId, role := role }).2 orgId userId).length = 1 ∧
    (∀ m ∈ membershipsFor (handleUpdateMembership db orgId
        { userId := userId, role := role }).2 orgId userId,
      m.role = role ∧ m.orgId = orgId ∧ m.userId = userId) ∧
    (membershipsFor db orgId userId = [] →
      (handleUpdateMembership db orgId
        { userId := userId, role := role }).2.organizationMemberships =
        db.organizationMemberships ++
          [upsertCreatedRow db orgId userId role]) ∧
    (membershipsFor db orgId userId ≠ [] →
      (handleUpdateMembership db orgId
        { userId := userId,
          role := role }).2.organizationMemberships.length =
        db.organizationMemberships.length) ∧
    ((handleUpdateMembership db orgId
        { userId := userId, role := role }).2.organizationMemberships.filter
          (fun m => !orgUserKey orgId userId m) =
      db.organizationMemberships.filter
        (fun m => !orgUserKey orgId userId m)) ∧
    handleUpdateMembership (handleUpdateMembership db orgId
        { userId := userId, role := role }).2 orgId
      { userId := userId, role := role } =
      handleUpdateMembership db orgId { userId := userId, role := role } := by
  rcases hfind : findOrgMembership db orgId userId with _ | m
  · have hfindL : db.organizationMemberships.find?
        (orgUserKey orgId userId) = none := hfind
    have hr1 : handleUpdateMembership db orgId
        { userId := userId, role := role } =
        (ApiResponse.membershipUpserted userId role u.email u.name,
         upsertCreateDB db orgId userId role) := by
      simp [handleUpdateMembership, hu, upsertOrgMembership, hfind,
        upsertCreateDB, upsertCreatedRow]
    have hfilter : db.organizationMemberships.filter
        (orgUserKey orgId userId) = [] :=
      List.filter_eq_nil_iff.mpr (List.find?_eq_none.mp hfindL)
    rw [hr1]
    refine ⟨rfl, ?_, ?_, fun _ => rfl, ?_, ?_, ?_⟩
    · simp [membershipsFor, upsertCreateDB, List.filter_append, hfilter,
        upsertCreatedRow, orgUserKey]
    · intro x hx
      simp [membershipsFor, upsertCreateDB, List.filter_append, hfilter,
        upsertCreatedRow, orgUserKey] at hx
      simp [hx, upsertCreatedRow]
    · intro hne
      exact absurd (by simp [membershipsFor, hfilter]) hne
    · simp [upsertCreateDB, List.filter_append, upsertCreatedRow, orgUserKey]
    · have hu1 : findUserById (upsertCreateDB db orgId userId role)
          userId = some u :=
        (findUserById_congr _ db rfl _).trans hu
      have hfind1 : findOrgMembership (upsertCreateDB db orgId userId role)
          orgId userId = some (upsertCreatedRow db orgId userId role) := by
        unfold findOrgMembership
        rw [show (upsertCreateDB db orgId userId role).organizationMemberships
          = db.organizationMemberships ++
            [upsertCreatedRow db orgId userId role] from rfl,
          List.find?_append, hfindL]
        simp [upsertCreatedRow, orgUserKey]
      simp only [handleUpdateMembership, hu1, upsertOrgMembership, hfind1]
      rw [show (upsertCreateDB db orgId userId role).organizationMemberships
          = db.organizationMemberships ++
            [upsertCreatedRow db orgId userId role] from rfl,
        updateFirstRole_append_left _ _ _ _ _ hfindL]
      simp [upsertCreateDB, upsertCreatedRow, updateFirstRole, orgUserKey]
  · have hfindL : db.organizationMemberships.find?
        (orgUserKey orgId userId) = some m := hfind
    have hkm : m.orgId = orgId ∧ m.userId = userId := by
      have := List.find?_some hfindL
      simpa [orgUserKey] using this
    have hkeyL : (db.organizationMemberships.filter
        (orgUserKey orgId userId)).length ≤ 1 := hkey
    have hr1 : handleUpdateMembership db orgId
        { userId := userId, role := role } =
        (ApiResponse.membershipUpserted userId role u.email u.name,
         upsertUpdateDB db orgId userId role) := by
      simp [handleUpdateMembership, hu, upsertOrgMembership, hfind,
        upsertUpdateDB, hkm.2]
    have hfu := filter_updateFirstRole_single db.organizationMemberships m
      orgId userId role hfindL hkeyL
    rw [hr1]
    refine ⟨rfl, ?_, ?_, ?_, ?_, ?_, ?_⟩
    · simp [membershipsFor, upsertUpdateDB, hfu]
    · intro x hx
      simp only [membershipsFor, upsertUpdateDB] at hx
      rw [hfu] at hx
      simp at hx
      simp [hx, hkm.1, hkm.2]
    · intro h0
      have hmem : m ∈ db.organizationMemberships :=
        List.mem_of_find?_eq_some hfindL
      have hin : m ∈ membershipsFor db orgId userId :=
        List.mem_filter.mpr ⟨hmem, List.find?_some hfindL⟩
      rw [h0] at hin
      cases hin
    · intro _
      exact updateFirstRole_length _ _ _ _
    · exact filter_not_updateFirstRole _ _ _ _
    · have hu1 : findUserById (upsertUpdateDB db orgId userId role)
          userId = some u :=
        (findUserById_congr _ db rfl _).trans hu
      have hfind1 : findOrgMembership (upsertUpdateDB db orgId userId role)
          orgId userId = some { m with role := role } := by
        unfold findOrgMembership
        rw [show (upsertUpdateDB db orgId userId role).organizationMemberships
          = updateFirstRole db.organizationMemberships orgId userId role
          from rfl, find?_updateFirstRole, hfindL]
        rfl
      simp only [handleUpdateMembership, hu1, upsertOrgMembership, hfind1]
      rw [show (upsertUpdateDB db orgId userId role).organizationMemberships
          = updateFirstRole db.organizationMemberships orgId userId role
          from rfl, updateFirstRole_idem]
      simp [upsertUpdateDB, hkm.2]

/-- Witness for C9: upserting a fresh membership at a concrete database
returns the upserted tuple. -/
theorem upsert_membership_spec_witness :
    (handleUpdateMembership wDb "org1"
      { userId := "u1", role := Role.MEMBER }).1 =
      ApiResponse.membershipUpserted "u1" Role.MEMBER wAlice.email
        wAlice.name :=
  (upsert_membership_spec wDb "org1" "u1" Role.MEMBER wAlice
    (by decide) (by decide)).1

lemma auditEntries_projectStepEvents_shape (db : DB) (orgId : String)
    (body : CreateMembershipBody) (u : User) :
    auditEntries (projectStepEvents db orgId body u) = [] ∨
    ∃ p pr, auditEntries (projectStepEvents db orgId body u) =
      [projectMembershipAuditEntry orgId body.role p u
        (newProjectMembership u p pr (newOrgMembership db orgId u
          body.role))] := by
  unfold projectStepEvents
  rcases resolveProject db orgId body.projectId with _ | p <;>
    rcases body.projectRole with _ | pr
  · exact Or.inl rfl
  · exact Or.inl rfl
  · exact Or.inl rfl
  · by_cases hpr : pr = Role.NONE
    · exact Or.inl (by simp [hpr, auditEntries])
    · exact Or.inr ⟨p, pr, by simp [hpr, auditEntries]⟩

/-- C10: every audit entry recorded by `handleCreateMembership` uses the
literal actor sentinel "API" and carries the requested organization role
in `orgRole`; the audit entry for a project-membership creation records
the organization role (not the project role) and identifies its resource
by the composite string `projectId--userId`. -/
theorem audit_actor_and_resource
    (env : Env) (db : DB) (orgId : String) (body : CreateMembershipBody) :
    ∀ a ∈ auditEntries (handleCreateMembership env db orgId body).2.2,
      a.userId = "API" ∧ a.orgRole = body.role ∧
      (∀ pm, a.after = AuditAfter.projectMembership pm →
        a.resourceType = "projectMembership" ∧
        a.resourceId = pm.projectId ++ "--" ++ pm.userId) := by
  rcases horg : findOrganization db orgId with _ | org
  · rw [run_org_not_found env db orgId body horg]
    simp [auditEntries]
  · by_cases hguard : (strTruthy body.projectId &&
      (resolveProject db orgId body.projectId).isNone) = true
    · rw [run_project_not_found env db orgId body org horg hguard]
      simp only [auditEntries_append, auditEntries_projectLookupEvents]
      simp [auditEntries]
    · have hguard' : (strTruthy body.projectId &&
          (resolveProject db orgId body.projectId).isNone) = false := by
        cases h : (strTruthy body.projectId &&
            (resolveProject db orgId body.projectId).isNone)
        · rfl
        · exact absurd h hguard
      rcases hu : findUserByEmail db (lowerString body.email) with _ | u
      · rcases hinv : findInvitation db (lowerString body.email) orgId with
            _ | i
        · rw [run_new_user env db orgId body org hu horg hguard' hinv]
          intro a ha
          simp only [newUserTrace, auditEntries_append,
            auditEntries_projectLookupEvents] at ha
          simp [auditEntries] at ha
          subst ha
          simp [invitationAuditEntry]
        · rw [run_invitation_exists env db orgId body org i hu horg hguard'
            hinv]
          simp only [auditEntries_append, auditEntries_projectLookupEvents]
          simp [auditEntries]
      · rcases hmem : findOrgMembership db orgId u.id with _ | m
        · rw [run_existing_user env db orgId body u org hu horg hguard' hmem]
          intro a ha
          simp only [existingUserTrace, auditEntries_append,
            auditEntries_projectLookupEvents] at ha
          rcases auditEntries_projectStepEvents_shape db orgId body u with
              hs | ⟨p, pr, hs⟩
          · rw [hs] at ha
            simp [auditEntries] at ha
            subst ha
            simp [orgMembershipAuditEntry]
          · rw [hs] at ha
            simp [auditEntries] at ha
            rcases ha with ha | ha <;> subst ha
            · simp [orgMembershipAuditEntry]
            · simp only [projectMembershipAuditEntry,
                newProjectMembership]
              refine ⟨trivial, trivial, ?_⟩
              intro pm hpm
              simp only [AuditAfter.projectMembership.injEq] at hpm
              subst hpm
              simp
        · rw [run_already_member env db orgId body u org m hu horg hguard'
            hmem]
          simp only [auditEntries_append, auditEntries_projectLookupEvents]
          simp [auditEntries]

/-- Witness for C10: the project-membership audit entry of a concrete run
has actor "API" and carries the requested organization role. -/
theorem audit_actor_and_resource_witness :
    (projectMembershipAuditEntry "org1" Role.ADMIN wProj wAlice
      (newProjectMembership wAlice wProj Role.MEMBER
        (newOrgMembership wDb "org1" wAlice Role.ADMIN))).userId = "API" ∧
    (projectMembershipAuditEntry "org1" Role.ADMIN wProj wAlice
      (newProjectMembership wAlice wProj Role.MEMBER
        (newOrgMembership wDb "org1" wAlice Role.ADMIN))).orgRole =
      Role.ADMIN :=
  ⟨(audit_actor_and_resource wEnv wDb "org1" wBodyP
      (projectMembershipAuditEntry "org1" Role.ADMIN wProj wAlice
        (newProjectMembership wAlice wProj Role.MEMBER
          (newOrgMembership wDb "org1" wAlice Role.ADMIN)))
      (by decide)).1,
   (audit_actor_and_resource wEnv wDb "org1" wBodyP
      (projectMembershipAuditEntry "org1" Role.ADMIN wProj wAlice
        (newProjectMembership wAlice wProj Role.MEMBER
          (newOrgMembership wDb "org1" wAlice Role.ADMIN)))
      (by decide)).2.1⟩

end Memberships
